import Mathlib

/-!
Verification of the chat-tinker GUI state model (src/gui.py).

The program is a flet GUI: a page (`STMainPage`) owning an ordered list
of message widgets (`MessageEntry`), each with an edit/save/cancel/delete
lifecycle, plus an input box and a send button.  We embed the state of
the widget tree shallowly:

* `TextField` / `Button` keep only the fields the handlers read or write
  (`value`, `disabled`, `visible`); purely cosmetic attributes
  (`multiline`, `expand`, focus, colors) have no state effect and are
  dropped, as are the `update()` / `focus()` render calls.
* Python objects are compared by identity in `list.remove`; we model
  object identity with an `oid : Nat` field assigned from a fresh
  counter on the page (`next_oid`), exactly one fresh id per
  `MessageEntry(...)` construction.
* Each `on_*` handler becomes a pure function on the entry / page state;
  user actions (clicking a button of the i-th entry, typing into an
  enabled text box, clicking send) form a step relation returning
  `Option` so that an impossible action (button of a non-existent entry)
  is `none` rather than a junk state.
-/

namespace ChatTinker

/-- The mutable state of a `ft.TextField` that the handlers touch. -/
structure TextField where
  label : String
  value : String
  disabled : Bool
  deriving DecidableEq, Repr

/-- The mutable state of a `ft.ElevatedButton` that the handlers touch. -/
structure Button where
  visible : Bool
  deriving DecidableEq, Repr

/-- State of one `MessageEntry` widget (src/gui.py, class MessageEntry).
`oid` models Python object identity (see module comment); the other
fields mirror the attributes set in `__init__`. -/
structure MessageEntry where
  oid : Nat
  author : String
  saved_content : String
  text_box : TextField
  edit_button : Button
  save_button : Button
  cancel_button : Button
  delete_button : Button
  deriving DecidableEq, Repr

namespace MessageEntry

/-- `MessageEntry.__init__(author, message, parent)`: text box shows the
message, disabled; Edit and Delete visible; Save and Cancel hidden.
The parent back-reference is represented by the page owning the list. -/
def init (oid : Nat) (author message : String) : MessageEntry :=
  { oid := oid
    author := author
    saved_content := message
    text_box := { label := author, value := message, disabled := true }
    edit_button := { visible := true }
    save_button := { visible := false }
    cancel_button := { visible := false }
    delete_button := { visible := true } }

/-- `on_edit`: hide Edit/Delete, show Save/Cancel, enable the text box. -/
def on_edit (e : MessageEntry) : MessageEntry :=
  { e with
    edit_button := { visible := false }
    save_button := { visible := true }
    cancel_button := { visible := true }
    delete_button := { visible := false }
    text_box := { e.text_box with disabled := false } }

/-- `on_save`: commit the displayed text to `saved_content`, show
Edit/Delete, hide Save/Cancel, disable the text box. -/
def on_save (e : MessageEntry) : MessageEntry :=
  { e with
    saved_content := e.text_box.value
    edit_button := { visible := true }
    save_button := { visible := false }
    cancel_button := { visible := false }
    delete_button := { visible := true }
    text_box := { e.text_box with disabled := true } }

/-- `on_cancel`: restore the displayed text from `saved_content`, show
Edit/Delete, hide Save/Cancel, disable the text box. -/
def on_cancel (e : MessageEntry) : MessageEntry :=
  { e with
    text_box := { e.text_box with value := e.saved_content, disabled := true }
    edit_button := { visible := true }
    save_button := { visible := false }
    cancel_button := { visible := false }
    delete_button := { visible := true } }

/-- The user typing into the (enabled) text box: the GUI replaces the
displayed value; no handler code runs. -/
def setText (e : MessageEntry) (t : String) : MessageEntry :=
  { e with text_box := { e.text_box with value := t } }

end MessageEntry

/-- Content of the seeded welcome message (src/gui.py line 134). -/
def welcomeText : String := "Welcome to the Chat-Tinker GUI!"

/-- Content of the seeded AI instruction message (src/gui.py line 143). -/
def exitText : String := "Type \x27exit\x27 to exit the application."

/-- State of the `STMainPage` widget: the message history list, the
input box, and the fresh object-id counter (modelling allocation). -/
structure STMainPage where
  msg_hist : List MessageEntry
  input_box : TextField
  next_oid : Nat
  deriving DecidableEq, Repr

namespace STMainPage

/-- `STMainPage.__init__`: seeds the history with the Setting welcome
entry and the AI instruction entry, then creates the empty input box. -/
def init : STMainPage :=
  { msg_hist :=
      [MessageEntry.init 0 "Setting" welcomeText,
       MessageEntry.init 1 "AI" exitText]
    input_box := { label := "You", value := "", disabled := false }
    next_oid := 2 }

/-- `on_send`: append a "You" entry holding the current input text, then
clear the input box, then append the placeholder "AI" entry, in the
statement order of the source. -/
def on_send (p : STMainPage) : STMainPage :=
  let p1 : STMainPage :=
    { p with
      msg_hist := p.msg_hist ++
        [MessageEntry.init p.next_oid "You" p.input_box.value]
      next_oid := p.next_oid + 1 }
  let p2 : STMainPage :=
    { p1 with input_box := { p1.input_box with value := "" } }
  { p2 with
    msg_hist := p2.msg_hist ++
      [MessageEntry.init p2.next_oid "AI" "Processing..."]
    next_oid := p2.next_oid + 1 }

end STMainPage

/-- Python `list.remove(x)`: remove the first element identical to `x`
(object identity = equal `oid`); raises ValueError - here `none` - when
no element matches. -/
def pyRemove (l : List MessageEntry) (oid : Nat) : Option (List MessageEntry) :=
  match l with
  | [] => none
  | e :: rest =>
      if e.oid = oid then some rest
      else (pyRemove rest oid).map (fun r => e :: r)

/-- A user action on the page: typing into the input box, clicking Send,
or clicking a button of (or typing into) the i-th history entry. -/
inductive Action where
  | setInput (t : String)
  | send
  | edit (i : Nat)
  | save (i : Nat)
  | cancel (i : Nat)
  | typeText (i : Nat) (t : String)
  | delete (i : Nat)
  deriving DecidableEq, Repr

/-- Apply an entry-local handler to the i-th history entry. -/
def stepEntryAt (p : STMainPage) (i : Nat)
    (f : MessageEntry → MessageEntry) : Option STMainPage :=
  if h : i < p.msg_hist.length then
    some { p with msg_hist := p.msg_hist.set i (f (p.msg_hist.get ⟨i, h⟩)) }
  else none

/-- One user action.  `none` means the action is impossible in the GUI
(no i-th entry, typing into a disabled field) or the handler raised
(`list.remove` on an absent element). -/
def step (p : STMainPage) : Action → Option STMainPage
  | .setInput t => some { p with input_box := { p.input_box with value := t } }
  | .send => some p.on_send
  | .edit i => stepEntryAt p i MessageEntry.on_edit
  | .save i => stepEntryAt p i MessageEntry.on_save
  | .cancel i => stepEntryAt p i MessageEntry.on_cancel
  | .typeText i t =>
      if h : i < p.msg_hist.length then
        if (p.msg_hist.get ⟨i, h⟩).text_box.disabled then none
        else stepEntryAt p i (fun e => e.setText t)
      else none
  | .delete i =>
      if h : i < p.msg_hist.length then
        (pyRemove p.msg_hist (p.msg_hist.get ⟨i, h⟩).oid).map
          (fun l => { p with msg_hist := l })
      else none

/-- Page states reachable from page load by user actions. -/
inductive Reachable : STMainPage → Prop where
  | init : Reachable STMainPage.init
  | step {p p' : STMainPage} {a : Action} :
      Reachable p → step p a = some p' → Reachable p'

/-- Entry states reachable from a given entry by the edit/save/cancel
handlers and by typing into the text box. -/
inductive EntryOps (e0 : MessageEntry) : MessageEntry → Prop where
  | refl : EntryOps e0 e0
  | edit {e : MessageEntry} : EntryOps e0 e → EntryOps e0 e.on_edit
  | save {e : MessageEntry} : EntryOps e0 e → EntryOps e0 e.on_save
  | cancel {e : MessageEntry} : EntryOps e0 e → EntryOps e0 e.on_cancel
  | type {e : MessageEntry} (t : String) : EntryOps e0 e → EntryOps e0 (e.setText t)

/-- The edit-mode invariant of one entry: the text box is locked exactly
when Edit and Delete are visible, and Save/Cancel visibility is the
exact complement. -/
def entryInv (e : MessageEntry) : Prop :=
  e.text_box.disabled = e.edit_button.visible ∧
  e.edit_button.visible = e.delete_button.visible ∧
  e.save_button.visible = (!e.edit_button.visible) ∧
  e.cancel_button.visible = (!e.edit_button.visible)

instance (e : MessageEntry) : Decidable (entryInv e) := by
  unfold entryInv; infer_instance

/-- An action the rendered GUI can actually offer the user in state `p`:
any input-box text and Send always, an entry's buttons only when the
entry exists, typing into its text box only when the box is enabled. -/
def ValidAction (p : STMainPage) : Action → Prop
  | .setInput _ => True
  | .send => True
  | .edit i => i < p.msg_hist.length
  | .save i => i < p.msg_hist.length
  | .cancel i => i < p.msg_hist.length
  | .typeText i _ =>
      ∃ h : i < p.msg_hist.length,
        (p.msg_hist.get ⟨i, h⟩).text_box.disabled = false
  | .delete i => i < p.msg_hist.length

/-- Object-identity invariant: all entries in the history carry distinct
object ids, all below the allocation counter. -/
def OidInv (p : STMainPage) : Prop :=
  (p.msg_hist.map MessageEntry.oid).Nodup ∧
  ∀ e ∈ p.msg_hist, e.oid < p.next_oid

/- ## Helper lemmas -/

theorem oid_on_edit (e : MessageEntry) : e.on_edit.oid = e.oid := rfl

theorem oid_on_save (e : MessageEntry) : e.on_save.oid = e.oid := rfl

theorem oid_on_cancel (e : MessageEntry) : e.on_cancel.oid = e.oid := rfl

theorem oid_setText (e : MessageEntry) (t : String) : (e.setText t).oid = e.oid := rfl

theorem set_get_self {α : Type} (l : List α) (i : Nat) (h : i < l.length) :
    l.set i (l.get ⟨i, h⟩) = l := by
  induction l generalizing i with
  | nil => simp at h
  | cons a t ih =>
    cases i with
    | zero => rfl
    | succ n => simpa using ih n (by simpa using h)

theorem map_oid_set (l : List MessageEntry) (i : Nat) (h : i < l.length)
    (x : MessageEntry) (hx : x.oid = (l.get ⟨i, h⟩).oid) :
    (l.set i x).map MessageEntry.oid = l.map MessageEntry.oid := by
  induction l generalizing i with
  | nil => simp at h
  | cons a t ih =>
    cases i with
    | zero => simpa using hx
    | succ n =>
      have hn : n < t.length := by simpa using h
      simpa using ih n hn hx

theorem send_msg_hist (p : STMainPage) :
    p.on_send.msg_hist =
      p.msg_hist ++
        [MessageEntry.init p.next_oid "You" p.input_box.value,
         MessageEntry.init (p.next_oid + 1) "AI" "Processing..."] := by
  simp [STMainPage.on_send]

theorem pyRemove_sublist {l l' : List MessageEntry} {oid : Nat}
    (h : pyRemove l oid = some l') : l'.Sublist l := by
  induction l generalizing l' with
  | nil => simp [pyRemove] at h
  | cons e rest ih =>
    by_cases he : e.oid = oid
    · simp only [pyRemove, if_pos he, Option.some.injEq] at h
      exact h ▸ List.sublist_cons_self e rest
    · simp only [pyRemove, if_neg he, Option.map_eq_some'] at h
      obtain ⟨r, hr, rfl⟩ := h
      exact (ih hr).cons₂ e

theorem pyRemove_isSome {l : List MessageEntry} {oid : Nat}
    (h : ∃ e ∈ l, e.oid = oid) : (pyRemove l oid).isSome = true := by
  induction l with
  | nil => simp at h
  | cons e rest ih =>
    by_cases he : e.oid = oid
    · simp [pyRemove, he]
    · simp only [pyRemove, if_neg he]
      obtain ⟨x, hx, hxo⟩ := h
      rcases List.mem_cons.mp hx with rfl | hx
      · exact absurd hxo he
      · have hs := ih ⟨x, hx, hxo⟩
        cases hr : pyRemove rest oid with
        | none => rw [hr] at hs; simp at hs
        | some r => simp

theorem pyRemove_get (l : List MessageEntry) (i : Nat) (h : i < l.length)
    (hnd : (l.map MessageEntry.oid).Nodup) :
    pyRemove l (l.get ⟨i, h⟩).oid = some (l.eraseIdx i) := by
  induction l generalizing i with
  | nil => simp at h
  | cons e rest ih =>
    cases i with
    | zero => simp [pyRemove]
    | succ n =>
      have hn : n < rest.length := by simpa using h
      have hmem : (rest.get ⟨n, hn⟩).oid ∈ rest.map MessageEntry.oid :=
        List.mem_map_of_mem _ (rest.get_mem n hn)
      have hnd' : (e.oid :: rest.map MessageEntry.oid).Nodup := by
        simpa using hnd
      have hne : ¬ e.oid = (rest.get ⟨n, hn⟩).oid := by
        intro hEq
        exact (List.nodup_cons.mp hnd').1 (hEq ▸ hmem)
      have hget : ((e :: rest).get ⟨n + 1, h⟩) = rest.get ⟨n, hn⟩ := rfl
      rw [hget]
      simp only [pyRemove, if_neg hne,
        ih n hn (List.nodup_cons.mp hnd').2, Option.map_some']
      rfl

theorem oidInv_of_reachable {p : STMainPage} (hp : Reachable p) : OidInv p := by
  induction hp with
  | init =>
    constructor
    · decide
    · intro e he
      simp only [STMainPage.init, List.mem_cons] at he
      rcases he with rfl | he
      · decide
      · rcases he with rfl | he
        · decide
        · simp at he
  | step hre hst ih =>
    rename_i p p' a
    obtain ⟨hnd, hbound⟩ := ih
    have hset : ∀ (i : Nat) (hi : i < p.msg_hist.length)
        (f : MessageEntry → MessageEntry) (hf : ∀ e, (f e).oid = e.oid),
        OidInv { p with
          msg_hist := p.msg_hist.set i (f (p.msg_hist.get ⟨i, hi⟩)) } := by
      intro i hi f hf
      constructor
      · rw [map_oid_set p.msg_hist i hi _ (hf _)]
        exact hnd
      · intro e he
        rcases List.mem_or_eq_of_mem_set he with he | rfl
        · exact hbound e he
        · rw [hf]
          exact hbound _ (p.msg_hist.get_mem i _)
    cases a with
    | setInput t =>
      simp only [step, Option.some.injEq] at hst
      exact hst ▸ ⟨hnd, hbound⟩
    | send =>
      simp only [step, Option.some.injEq] at hst
      subst hst
      constructor
      · rw [send_msg_hist, List.map_append]
        refine List.Nodup.append hnd ?_ ?_
        · simp [MessageEntry.init]
        · intro x hx hx2
          obtain ⟨e, he, rfl⟩ := List.mem_map.mp hx
          have := hbound e he
          simp only [List.map_cons, List.map_nil, List.mem_cons,
            List.not_mem_nil, or_false, MessageEntry.init] at hx2
          omega
      · intro e he
        rw [send_msg_hist] at he
        have hnext : p.on_send.next_oid = p.next_oid + 1 + 1 := rfl
        rw [hnext]
        rcases List.mem_append.mp he with he | he
        · have := hbound e he; omega
        · simp only [List.mem_cons, List.not_mem_nil, or_false] at he
          rcases he with rfl | rfl
          · simp only [MessageEntry.init]; omega
          · simp only [MessageEntry.init]; omega
    | edit i =>
      simp only [step, stepEntryAt] at hst
      split at hst
      · rename_i hi
        simp only [Option.some.injEq] at hst
        exact hst ▸ hset i hi _ oid_on_edit
      · exact absurd hst (by simp)
    | save i =>
      simp only [step, stepEntryAt] at hst
      split at hst
      · rename_i hi
        simp only [Option.some.injEq] at hst
        exact hst ▸ hset i hi _ oid_on_save
      · exact absurd hst (by simp)
    | cancel i =>
      simp only [step, stepEntryAt] at hst
      split at hst
      · rename_i hi
        simp only [Option.some.injEq] at hst
        exact hst ▸ hset i hi _ oid_on_cancel
      · exact absurd hst (by simp)
    | typeText i t =>
      simp only [step] at hst
      split at hst
      · rename_i hi
        split at hst
        · exact absurd hst (by simp)
        · simp only [stepEntryAt, dif_pos hi, Option.some.injEq] at hst
          exact hst ▸ hset i hi _ (fun e => oid_setText e t)
      · exact absurd hst (by simp)
    | delete i =>
      simp only [step] at hst
      split at hst
      · rename_i hi
        rw [Option.map_eq_some'] at hst
        obtain ⟨l', hl', rfl⟩ := hst
        have hsub := pyRemove_sublist hl'
        constructor
        · exact List.Nodup.sublist (hsub.map MessageEntry.oid) hnd
        · intro e he
          exact hbound e (hsub.subset he)
      · exact absurd hst (by simp)

/- ## Claim theorems -/

/-- C1: for every page state and hence every input-box value (empty and
whitespace-only included), clicking Send appends exactly two entries at
the end of the history, first an entry authored "You" holding the input
text, then an entry authored "AI" holding "Processing..."; the existing
entries are kept unchanged, in order. -/
theorem send_appends_two_entries (p : STMainPage) :
    p.on_send.msg_hist =
      p.msg_hist ++
        [MessageEntry.init p.next_oid "You" p.input_box.value,
         MessageEntry.init (p.next_oid + 1) "AI" "Processing..."] ∧
    p.on_send.msg_hist.map
        (fun e => (e.author, e.saved_content, e.text_box.value)) =
      p.msg_hist.map (fun e => (e.author, e.saved_content, e.text_box.value)) ++
        [("You", p.input_box.value, p.input_box.value),
         ("AI", "Processing...", "Processing...")] := by
  refine ⟨send_msg_hist p, ?_⟩
  rw [send_msg_hist, List.map_append]
  rfl

/-- C2: edit, then any mutation of the displayed text, then cancel,
leaves both the saved content and the displayed content at the value
saved before the edit began. -/
theorem edit_cancel_roundTrip (e : MessageEntry) (t : String) :
    ((e.on_edit.setText t).on_cancel).saved_content = e.saved_content ∧
    ((e.on_edit.setText t).on_cancel).text_box.value = e.saved_content :=
  ⟨rfl, rfl⟩

/-- C3: edit then save commits the displayed text (here an arbitrary
`t`, covering "foo") as the new saved content; a later edit followed by
cancel (with any intermediate mutation `u`) restores `t`, not the
original; in general save commits the currently displayed text. -/
theorem edit_save_commits (e : MessageEntry) (t u : String) :
    ((e.on_edit.setText t).on_save).saved_content = t ∧
    ((((e.on_edit.setText t).on_save).on_edit.setText u).on_cancel).text_box.value = t ∧
    (e.on_save).saved_content = e.text_box.value :=
  ⟨rfl, rfl, rfl⟩

/-- C4: in every reachable page state, deleting the i-th entry removes
exactly that entry: the history becomes `eraseIdx i`, the length drops
by exactly one, and the remaining entries keep their relative order
(`take i ++ drop (i+1)`).  The statement quantifies over every
reachable state, so the entry may be in Viewing or Editing state. -/
theorem delete_removes_entry (p : STMainPage) (hp : Reachable p)
    (i : Nat) (hi : i < p.msg_hist.length) :
    step p (Action.delete i) =
      some { p with msg_hist := p.msg_hist.eraseIdx i } ∧
    (p.msg_hist.eraseIdx i).length + 1 = p.msg_hist.length ∧
    p.msg_hist.eraseIdx i = p.msg_hist.take i ++ p.msg_hist.drop (i + 1) := by
  have hnd := (oidInv_of_reachable hp).1
  refine ⟨?_, ?_, List.eraseIdx_eq_take_drop_succ _ _⟩
  · simp only [step, dif_pos hi, pyRemove_get p.msg_hist i hi hnd,
      Option.map_some']
  · have := List.length_eraseIdx_of_lt hi
    omega

/-- Witness for C4: deleting the first seeded entry on the freshly
loaded page yields the one-entry history. -/
theorem delete_removes_entry_witness :
    step STMainPage.init (Action.delete 0) =
      some { STMainPage.init with
             msg_hist := STMainPage.init.msg_hist.eraseIdx 0 } :=
  (delete_removes_entry STMainPage.init Reachable.init 0 (by decide)).1

/-- C5: on page load the history holds exactly two entries, in order the
"Setting" welcome entry and the "AI" instruction entry. -/
theorem initial_messages :
    STMainPage.init.msg_hist.map (fun e => (e.author, e.saved_content)) =
      [("Setting", "Welcome to the Chat-Tinker GUI!"),
       ("AI", "Type \x27exit\x27 to exit the application.")] := rfl

/-- C6 counterexample: the seeded AI instruction line does NOT have
content "Type 'exit' to exit." — the source seeds a longer string. -/
theorem exit_text_claim_false :
    ¬ ((STMainPage.init.msg_hist.map MessageEntry.saved_content).getD 1 "" =
        "Type \x27exit\x27 to exit.") := by
  decide

/-- C6 amended: the seeded AI instruction line has content exactly
"Type 'exit' to exit the application.". -/
theorem exit_text_actual :
    (STMainPage.init.msg_hist.map
        (fun e => (e.author, e.saved_content))).getD 1 ("", "") =
      ("AI", "Type \x27exit\x27 to exit the application.") := rfl

/-- C7: after every Send click the input box is cleared. -/
theorem send_clears_input (p : STMainPage) : p.on_send.input_box.value = "" :=
  rfl

/-- C8: every entry state reachable from a freshly constructed entry by
edit/save/cancel (and typing) satisfies the edit-mode invariant: the
text box is locked exactly when Edit/Delete are visible, and Save and
Cancel are visible exactly when Edit is not. -/
theorem edit_mode_invariant (oid : Nat) (a m : String) (e : MessageEntry)
    (h : EntryOps (MessageEntry.init oid a m) e) : entryInv e := by
  induction h with
  | refl => exact ⟨rfl, rfl, rfl, rfl⟩
  | edit _ _ => exact ⟨rfl, rfl, rfl, rfl⟩
  | save _ _ => exact ⟨rfl, rfl, rfl, rfl⟩
  | cancel _ _ => exact ⟨rfl, rfl, rfl, rfl⟩
  | type t _ ih => exact ih

/-- Witness for C8: the invariant holds at a concrete fresh entry. -/
theorem edit_mode_invariant_witness : entryInv (MessageEntry.init 0 "You" "hi") :=
  edit_mode_invariant 0 "You" "hi" _ EntryOps.refl

/-- C9: in every reachable page state, every action the GUI can offer
(Send, typing, and any button of an existing entry — Delete included)
succeeds: the step function returns a state, never the error value. -/
theorem operations_total (p : STMainPage) (hp : Reachable p)
    (a : Action) (ha : ValidAction p a) : (step p a).isSome = true := by
  cases a with
  | setInput t => simp [step]
  | send => simp [step]
  | edit i =>
    simp only [ValidAction] at ha
    simp [step, stepEntryAt, dif_pos ha]
  | save i =>
    simp only [ValidAction] at ha
    simp [step, stepEntryAt, dif_pos ha]
  | cancel i =>
    simp only [ValidAction] at ha
    simp [step, stepEntryAt, dif_pos ha]
  | typeText i t =>
    simp only [ValidAction] at ha
    obtain ⟨hi, hdis⟩ := ha
    have hdis' : p.msg_hist[i].text_box.disabled = false := hdis
    simp [step, dif_pos hi, hdis', stepEntryAt]
  | delete i =>
    simp only [ValidAction] at ha
    have hsome :=
      pyRemove_isSome ⟨_, p.msg_hist.get_mem i ha, rfl⟩
    simp only [step, dif_pos ha]
    cases hr : pyRemove p.msg_hist ((p.msg_hist.get ⟨i, ha⟩).oid) with
    | none => rw [hr] at hsome; simp at hsome
    | some l => simp

/-- Witness for C9: deleting the first seeded entry on the fresh page
succeeds. -/
theorem operations_total_witness :
    (step STMainPage.init (Action.delete 0)).isSome = true :=
  operations_total STMainPage.init Reachable.init (Action.delete 0)
    (by decide : 0 < STMainPage.init.msg_hist.length)

/-- C10: the author is fixed at construction — edit, save, cancel and
typing never change it; Send only appends the "You" and "AI" authors
after the unchanged existing authors; an entry-local handler leaves
every other entry and the input box untouched; Send leaves every
existing entry untouched. -/
theorem author_frame :
    (∀ e : MessageEntry,
        e.on_edit.author = e.author ∧
        e.on_save.author = e.author ∧
        e.on_cancel.author = e.author ∧
        ∀ t : String, (e.setText t).author = e.author) ∧
    (∀ p : STMainPage,
        p.on_send.msg_hist.map MessageEntry.author =
          p.msg_hist.map MessageEntry.author ++ ["You", "AI"]) ∧
    (∀ (p p' : STMainPage) (i : Nat) (f : MessageEntry → MessageEntry),
        stepEntryAt p i f = some p' →
        (∀ j : Nat, j ≠ i → p'.msg_hist[j]? = p.msg_hist[j]?) ∧
        p'.input_box = p.input_box) ∧
    (∀ p : STMainPage, ∀ j : Nat, j < p.msg_hist.length →
        p.on_send.msg_hist[j]? = p.msg_hist[j]?) := by
  refine ⟨fun e => ⟨rfl, rfl, rfl, fun t => rfl⟩, ?_, ?_, ?_⟩
  · intro p
    rw [send_msg_hist, List.map_append]
    rfl
  · intro p p' i f hst
    unfold stepEntryAt at hst
    split at hst
    · injection hst with hst
      subst hst
      exact ⟨fun j hj => List.getElem?_set_ne (Ne.symm hj), rfl⟩
    · cases hst
  · intro p j hj
    rw [send_msg_hist]
    exact List.getElem?_append_left hj

/-- Witness for C10: editing the first seeded entry of the fresh page
leaves the second entry untouched, and a concrete Send appends exactly
the two authors. -/
theorem author_frame_witness :
    ((STMainPage.init.msg_hist.set 0
        ((MessageEntry.init 0 "Setting" welcomeText).on_edit))[1]? =
      STMainPage.init.msg_hist[1]?) ∧
    (STMainPage.init.on_send.msg_hist.map MessageEntry.author =
      STMainPage.init.msg_hist.map MessageEntry.author ++ ["You", "AI"]) :=
  ⟨(author_frame.2.2.1 STMainPage.init
      { STMainPage.init with
        msg_hist := STMainPage.init.msg_hist.set 0
          ((MessageEntry.init 0 "Setting" welcomeText).on_edit) }
      0 MessageEntry.on_edit rfl).1 1 (by decide),
   author_frame.2.1 STMainPage.init⟩

end ChatTinker
